import Mathlib

/-!
Verification of the geospatial proximity-search core of the spotimap backend
(`api/api.py`): the haversine distance helper, the radius→geohash-precision
selector, geohash neighborhood expansion, per-cell Firestore range queries and
the `users_nearby` result-assembly pipeline.

External collaborators (the `pygeohash` encode/adjacent functions, URL quoting,
the Firestore connection and the Spotify client) are modelled as parameters of
the pipeline, collected in an `Env` structure; the code of the repository
itself (filtering, branching, result construction, error propagation) is
translated directly from the source.

Real-number arithmetic stands in for Python floats throughout.
-/

namespace Spotimap

/-- `haversine(lat1, lon1, lat2, lon2)` from `api/api.py`: great-circle
distance in km, Earth radius 6371.  `math.radians x = x * π / 180`.  The
source computes `a = sin(dlat/2)**2 + cos(lat1)*cos(lat2)*sin(dlon/2)**2`
and returns `2 * asin(sqrt(a)) * 6371`, with no clamping of `a`. -/
noncomputable def haversine (lat1 lon1 lat2 lon2 : ℝ) : ℝ :=
  2 * Real.arcsin (Real.sqrt
      (Real.sin ((lat2 * (Real.pi / 180) - lat1 * (Real.pi / 180)) / 2) ^ 2 +
        Real.cos (lat1 * (Real.pi / 180)) * Real.cos (lat2 * (Real.pi / 180)) *
          Real.sin ((lon2 * (Real.pi / 180) - lon1 * (Real.pi / 180)) / 2) ^ 2)) * 6371

theorem haversine_comm (lat1 lon1 lat2 lon2 : ℝ) :
    haversine lat1 lon1 lat2 lon2 = haversine lat2 lon2 lat1 lon1 := by
  unfold haversine
  rw [show lat2 * (Real.pi / 180) - lat1 * (Real.pi / 180) =
        -(lat1 * (Real.pi / 180) - lat2 * (Real.pi / 180)) by ring,
      show lon2 * (Real.pi / 180) - lon1 * (Real.pi / 180) =
        -(lon1 * (Real.pi / 180) - lon2 * (Real.pi / 180)) by ring,
      neg_div, neg_div, Real.sin_neg, Real.sin_neg, neg_sq, neg_sq,
      mul_comm (Real.cos (lat1 * (Real.pi / 180))) (Real.cos (lat2 * (Real.pi / 180)))]

theorem haversine_self (lat lon : ℝ) : haversine lat lon lat lon = 0 := by
  simp [haversine]

/-- The quantity `a` that `haversine` passes to `sqrt` (and whose square root
it passes to `asin`). -/
noncomputable def haversineSqrtArg (lat1 lon1 lat2 lon2 : ℝ) : ℝ :=
  Real.sin ((lat2 * (Real.pi / 180) - lat1 * (Real.pi / 180)) / 2) ^ 2 +
    Real.cos (lat1 * (Real.pi / 180)) * Real.cos (lat2 * (Real.pi / 180)) *
      Real.sin ((lon2 * (Real.pi / 180) - lon1 * (Real.pi / 180)) / 2) ^ 2

/-- In exact real arithmetic the argument of the square root in `haversine`
always lies in `[0, 1]`, for arbitrary real coordinates — even without the
clamp that the spec describes.  Key identity:
`sin²((y−x)/2) + cos x · cos y = (1 + cos (x+y)) / 2`. -/
theorem haversineSqrtArg_mem_Icc (lat1 lon1 lat2 lon2 : ℝ) :
    haversineSqrtArg lat1 lon1 lat2 lon2 ∈ Set.Icc (0 : ℝ) 1 := by
  unfold haversineSqrtArg
  set x := lat1 * (Real.pi / 180) with hx
  set y := lat2 * (Real.pi / 180) with hy
  set s := Real.sin ((lon2 * (Real.pi / 180) - lon1 * (Real.pi / 180)) / 2) ^ 2 with hs
  have hs0 : 0 ≤ s := sq_nonneg _
  have hs1 : s ≤ 1 := Real.sin_sq_le_one _
  have hkey : Real.sin ((y - x) / 2) ^ 2 + Real.cos x * Real.cos y =
      (1 + Real.cos (x + y)) / 2 := by
    rw [Real.sin_sq, Real.cos_sq, show (2 : ℝ) * ((y - x) / 2) = y - x by ring,
      Real.cos_sub, Real.cos_add]
    ring
  have hsin2 : Real.sin ((y - x) / 2) ^ 2 ≤ 1 := Real.sin_sq_le_one _
  have hcos1 : Real.cos (x + y) ≤ 1 := Real.cos_le_one _
  have hcosm1 : -1 ≤ Real.cos (x + y) := Real.neg_one_le_cos _
  constructor
  · rcases le_or_lt 0 (Real.cos x * Real.cos y) with h | h
    · positivity
    · have : Real.sin ((y - x) / 2) ^ 2 + Real.cos x * Real.cos y * s ≥
          Real.sin ((y - x) / 2) ^ 2 + Real.cos x * Real.cos y := by nlinarith
      nlinarith [sq_nonneg (Real.sin ((y - x) / 2))]
  · rcases le_or_lt (Real.cos x * Real.cos y) 0 with h | h
    · nlinarith [sq_nonneg (Real.sin ((y - x) / 2))]
    · nlinarith

/-- The clamped variant of the square-root argument described by the spec
("clamp to [0,1] before arcsine"); in exact real arithmetic it coincides
with the unclamped argument the code uses. -/
noncomputable def haversineSqrtArgClamped (lat1 lon1 lat2 lon2 : ℝ) : ℝ :=
  max 0 (min 1 (haversineSqrtArg lat1 lon1 lat2 lon2))

theorem haversineSqrtArgClamped_eq (lat1 lon1 lat2 lon2 : ℝ) :
    haversineSqrtArgClamped lat1 lon1 lat2 lon2 = haversineSqrtArg lat1 lon1 lat2 lon2 := by
  have h := haversineSqrtArg_mem_Icc lat1 lon1 lat2 lon2
  unfold haversineSqrtArgClamped
  rw [min_eq_right h.2, max_eq_right h.1]

/-- The radius→precision mapping inlined in `users_nearby`
(`api/api.py`, lines 216–220). -/
noncomputable def precisionFor (radius_km : ℝ) : ℕ :=
  if radius_km ≤ 2.5 then 6
  else if radius_km ≤ 20 then 5
  else if radius_km ≤ 80 then 4
  else if radius_km ≤ 600 then 3
  else 2

theorem precisionFor_le_six (radius_km : ℝ) : precisionFor radius_km ≤ 6 := by
  unfold precisionFor
  split_ifs <;> omega

theorem two_le_precisionFor (radius_km : ℝ) : 2 ≤ precisionFor radius_km := by
  unfold precisionFor
  split_ifs <;> omega

theorem precisionFor_antitone {r₁ r₂ : ℝ} (h : r₁ ≤ r₂) :
    precisionFor r₂ ≤ precisionFor r₁ := by
  unfold precisionFor
  split_ifs <;> first | omega | linarith

/-- The four cardinal directions accepted by `pygeohash.get_adjacent`. -/
inductive Direction where
  | top
  | bottom
  | left
  | right
deriving DecidableEq

/-- `get_all_neighbors(geohash)` from `api/api.py`: the centre cell, its four
cardinal neighbours and the four diagonals obtained by composing two cardinal
moves, with duplicates removed (`list(set(neighbors))`).  The adjacency
function `adj` models `pygeohash.get_adjacent`, an external collaborator. -/
def get_all_neighbors (adj : String → Direction → String) (geohash : String) : List String :=
  let n := adj geohash .top
  let s := adj geohash .bottom
  let e := adj geohash .right
  let w := adj geohash .left
  let nw := adj n .left
  let ne := adj n .right
  let sw := adj s .left
  let se := adj s .right
  ([geohash, n, s, e, w] ++ [nw, ne, sw, se]).dedup

theorem self_mem_get_all_neighbors (adj : String → Direction → String) (geohash : String) :
    geohash ∈ get_all_neighbors adj geohash := by
  unfold get_all_neighbors
  simp [List.mem_dedup]

theorem get_all_neighbors_nodup (adj : String → Direction → String) (geohash : String) :
    (get_all_neighbors adj geohash).Nodup :=
  List.nodup_dedup _

theorem get_all_neighbors_length_le (adj : String → Direction → String) (geohash : String) :
    (get_all_neighbors adj geohash).length ≤ 9 := by
  have h := (List.dedup_sublist
    ([geohash, adj geohash .top, adj geohash .bottom, adj geohash .right, adj geohash .left] ++
      [adj (adj geohash .top) .left, adj (adj geohash .top) .right,
        adj (adj geohash .bottom) .left, adj (adj geohash .bottom) .right])).length_le
  simpa [get_all_neighbors] using h

theorem one_le_get_all_neighbors_length (adj : String → Direction → String) (geohash : String) :
    1 ≤ (get_all_neighbors adj geohash).length :=
  List.length_pos.mpr (List.ne_nil_of_mem (self_mem_get_all_neighbors adj geohash))

/-- The location-relevant fields written by `save_user_data` and
`update_location`.  The Spotify-token bookkeeping fields written alongside them
(`spotify_access_token`, `spotify_refresh_token`, `expires_at`,
`last_updated`) are orthogonal to every location claim and are not modelled. -/
structure WriteData where
  latitude : Option ℝ
  longitude : Option ℝ
  geohash : Option String
  location_sharing_enabled : Bool

/-- The location part of `save_user_data(spotify_id, token_info, location,
is_sharing)` (`api/api.py`, lines 92–106): the geohash is derived with
`pgh.encode(lat, lon, precision=7)` exactly when a location with non-null
latitude and longitude is supplied.  `encode` models `pygeohash.encode`. -/
def save_user_data (encode : ℝ → ℝ → ℕ → String)
    (location : Option (Option ℝ × Option ℝ)) (is_sharing : Bool) : WriteData :=
  match location with
  | some (some lat, some lon) =>
    { latitude := some lat, longitude := some lon,
      geohash := some (encode lat lon 7), location_sharing_enabled := is_sharing }
  | _ => { latitude := none, longitude := none, geohash := none,
           location_sharing_enabled := is_sharing }

/-- The location part of the `update_location` route (`api/api.py`, lines
182–202): when `location_data` is present the update stores latitude,
longitude and `pgh.encode(lat, lon, precision=7)`. -/
def update_location (encode : ℝ → ℝ → ℕ → String)
    (location_data : Option (ℝ × ℝ)) (is_sharing : Bool) : WriteData :=
  match location_data with
  | some (lat, lon) =>
    { latitude := some lat, longitude := some lon,
      geohash := some (encode lat lon 7), location_sharing_enabled := is_sharing }
  | none => { latitude := none, longitude := none, geohash := none,
              location_sharing_enabled := is_sharing }

theorem save_user_data_geohash (encode : ℝ → ℝ → ℕ → String)
    (location : Option (Option ℝ × Option ℝ)) (is_sharing : Bool) (g : String)
    (h : (save_user_data encode location is_sharing).geohash = some g) :
    ∃ lat lon, g = encode lat lon 7 := by
  unfold save_user_data at h
  rcases location with _ | ⟨_ | lat, _ | lon⟩ <;> simp_all
  exact ⟨lat, lon, h.symm⟩

theorem update_location_geohash (encode : ℝ → ℝ → ℕ → String)
    (location_data : Option (ℝ × ℝ)) (is_sharing : Bool) (g : String)
    (h : (update_location encode location_data is_sharing).geohash = some g) :
    ∃ lat lon, g = encode lat lon 7 := by
  unfold update_location at h
  rcases location_data with _ | ⟨lat, lon⟩ <;> simp_all
  exact ⟨lat, lon, h.symm⟩

/-- The 32 characters of the geohash base-32 alphabet. -/
def base32Chars : List Char := "0123456789bcdefghjkmnpqrstuvwxyz".data

/-- A well-formed stored geohash: exactly 7 characters, all from the geohash
base-32 alphabet (the shape produced by `pgh.encode(..., precision=7)`). -/
def ValidGeohash7 (g : String) : Prop :=
  g.length = 7 ∧ ∀ c ∈ g.data, c ∈ base32Chars

instance (g : String) : Decidable (ValidGeohash7 g) := by
  unfold ValidGeohash7
  infer_instance

theorem base32_lt_tilde : ∀ c ∈ base32Chars, c < '~' := by decide

theorem tilde_not_base32 : '~' ∉ base32Chars := by decide

theorem lex_lt {l m : List Char} (h : List.Lex (· < ·) l m) : l < m := h

theorem list_le_append (l t : List Char) : l ≤ l ++ t := by
  induction l with
  | nil => simp
  | cons c cs ih => simpa using List.cons_le_cons c ih

theorem list_append_le_tilde (u rest : List Char) (h : ∀ c ∈ rest, c < '~') :
    u ++ rest ≤ u ++ ['~'] := by
  cases rest with
  | nil => simpa using list_le_append u ['~']
  | cons r rs =>
    exact le_of_lt (lex_lt (List.Lex.append_left _ (List.Lex.rel (h r (by simp))) u))

theorem list_prefix_of_le_of_le : ∀ (u v : List Char), u ≤ v → v ≤ u ++ ['~'] → u <+: v
  | [], v, _, _ => List.nil_prefix
  | c :: cs, [], h1, _ => absurd (lex_lt (List.Lex.nil)) h1.not_lt
  | c :: cs, d :: ds, h1, h2 => by
    have hdc : ¬ d < c := fun h => absurd (lex_lt (List.Lex.rel h)) h1.not_lt
    have hcd : ¬ c < d := fun h => by
      exact absurd (lex_lt (List.Lex.rel h)) h2.not_lt
    have hce : c = d := le_antisymm (not_lt.mp hdc) (not_lt.mp hcd)
    subst hce
    have h1' : cs ≤ ds := not_lt.mp (fun hlt => h1.not_lt (lex_lt (List.Lex.cons hlt)))
    have h2' : ds ≤ cs ++ ['~'] :=
      not_lt.mp (fun hlt => h2.not_lt (lex_lt (List.Lex.cons hlt)))
    obtain ⟨t, ht⟩ := list_prefix_of_le_of_le cs ds h1' h2'
    exact ⟨t, by simp [← ht]⟩

theorem string_data_append (s t : String) : (s ++ t).data = s.data ++ t.data := by
  simp

/-- Membership of a string `g` in the closed lexicographic range
`[cell, cell + "~"]` used by the Firestore query is equivalent, for a string
over the base-32 alphabet, to `cell` being a prefix of `g`. -/
theorem range_iff_prefix (cell g : String) (hvalid : ∀ c ∈ g.data, c ∈ base32Chars) :
    (cell ≤ g ∧ g ≤ cell ++ "~") ↔ cell.data <+: g.data := by
  constructor
  · rintro ⟨h1, h2⟩
    rw [String.le_iff_toList_le] at h1 h2
    exact list_prefix_of_le_of_le cell.data g.data h1 (by simpa using h2)
  · rintro ⟨t, ht⟩
    have htv : ∀ c ∈ t, c < '~' := fun c hc =>
      base32_lt_tilde c (hvalid c (ht ▸ List.mem_append_right _ hc))
    constructor
    · rw [String.le_iff_toList_le]
      show cell.data ≤ g.data
      rw [← ht]
      exact list_le_append _ _
    · rw [String.le_iff_toList_le]
      show g.data ≤ (cell ++ "~").data
      rw [← ht, string_data_append]
      exact list_append_le_tilde _ _ htv

/-- A string over the base-32 alphabet is never the sentinel upper bound
`cell + "~"` itself, so the closed range the code queries coincides with the
half-open range `[cell, cell + "~")` of the spec. -/
theorem valid_ne_sentinel (cell g : String) (hvalid : ∀ c ∈ g.data, c ∈ base32Chars) :
    g ≠ cell ++ "~" := by
  intro h
  apply tilde_not_base32
  apply hvalid
  rw [h, string_data_append]
  simp [show ("~" : String).data = ['~'] from rfl]

theorem le_sentinel_iff_lt (cell g : String) (hvalid : ∀ c ∈ g.data, c ∈ base32Chars) :
    g ≤ cell ++ "~" ↔ g < cell ++ "~" := by
  constructor
  · intro h
    exact lt_of_le_of_ne h (valid_ne_sentinel cell g hvalid)
  · exact le_of_lt

/-- The fields of a Firestore `users` document that `users_nearby` reads.
Optional fields model keys that may be absent from a document. -/
structure UserData where
  latitude : Option ℝ
  longitude : Option ℝ
  geohash : Option String
  location_sharing_enabled : Bool
  track : Option String
  artist : Option String
  image : Option String
  user_name : Option String

/-- A Firestore document: its id (the owner's Spotify id) and its data. -/
structure Doc where
  id : String
  data : UserData

/-- The slice of `sp.current_user()` that the enrichment path reads:
display name and profile URL. -/
structure Profile where
  display_name : String
  profile_url : String

/-- One entry of `track['item']['artists']`. -/
structure Artist where
  name : String
  url : String

/-- The slice of `sp.current_user_playing_track()` that the enrichment path
reads: the `is_playing` flag and the `item` fields. -/
structure Track where
  is_playing : Bool
  name : String
  artists : List Artist
  album_images : List String
  track_url : String

/-- One row of the `users_nearby` JSON response. -/
structure NearbyRow where
  id : String
  latitude : ℝ
  longitude : ℝ
  track_name : String
  artist : String
  album_art_url : String
  user_name : String
  spotify_url : String
  track_url : String
  artist_url : String

/-- How a `users_nearby` request can fail as a whole: the 400 returned when
parsing `latitude`/`longitude`/`radius_km` raises, or an exception escaping a
per-cell Firestore query (there is no try/except around `query.stream()`). -/
inductive SearchError where
  | validation
  | indexQuery
deriving DecidableEq

/-- The external collaborators of `users_nearby`, as oracles:
`encode`/`adj` model `pygeohash`, `quote` models `urllib.parse.quote`,
`token` models `get_token_info` (whose internal refresh failure is caught and
surfaces as `None`), `profile`/`playing` model the Spotify client calls (an
`Except.error` models a raised exception), and `fail` says whether the
Firestore range query for a given cell raises. -/
structure Env where
  encode : ℝ → ℝ → ℕ → String
  adj : String → Direction → String
  quote : String → String
  token : String → Option String
  profile : String → Except Unit Profile
  playing : String → Except Unit (Option Track)
  fail : String → Bool

/-- The Python membership test `"fake_user" in nearby_user_id`. -/
def isFake (id : String) : Bool := decide ("fake_user".data <:+: id.data)

/-- The result row synthesized for a `fake_user` candidate (`api/api.py`,
lines 236–254): track and artist come from the stored document with defaults,
and the URLs are Spotify search URLs built from the quoted names. -/
def fakeRow (quote : String → String) (d : Doc) (lat lon : ℝ) : NearbyRow :=
  let track_name := d.data.track.getD "Song"
  let artist_name := d.data.artist.getD "Artist"
  let encoded_query := quote (track_name ++ " " ++ artist_name)
  let fake_track_url := "https://open.spotify.com/search/" ++ encoded_query
  let encoded_artist := quote artist_name
  let fake_artist_url := "https://open.spotify.com/search/" ++ encoded_artist ++ "&type=artist"
  { id := d.id, latitude := lat, longitude := lon,
    track_name := track_name, artist := artist_name,
    album_art_url := d.data.image.getD "https://cdn-icons-png.flaticon.com/512/3209/3209995.png",
    user_name := d.data.user_name.getD "Anonymous",
    spotify_url := "https://open.spotify.com/",
    track_url := fake_track_url, artist_url := fake_artist_url }

/-- The live-status enrichment of one non-fake candidate (`api/api.py`, lines
256–284).  The outer `try/except Exception: pass` makes the whole step total:
a failing `current_user_playing_track`, a missing track, `is_playing` false,
or an index error on an empty `artists`/`images` list all yield no row.  The
inner try around `current_user()` falls back to the default name and "#". -/
def enrich_user (profile : String → Except Unit Profile)
    (playing : String → Except Unit (Option Track))
    (id : String) (lat lon : ℝ) : List NearbyRow :=
  let pr := match profile id with
    | .ok p => (p.display_name, p.profile_url)
    | .error _ => ("Spotify User", "#")
  match playing id with
  | .error _ => []
  | .ok none => []
  | .ok (some t) =>
    if t.is_playing then
      match t.artists, t.album_images with
      | a :: _, img :: _ =>
        [{ id := id, latitude := lat, longitude := lon,
           track_name := t.name, artist := a.name, album_art_url := img,
           track_url := t.track_url, artist_url := a.url,
           user_name := pr.1, spotify_url := pr.2 }]
      | _, _ => []
    else []

/-- The per-document body of the `users_nearby` loop (`api/api.py`, lines
229–284): skip the requester's own document, skip documents without
coordinates, apply the haversine filter with 10% slack, then either
synthesize a fake row or enrich through the Spotify oracles. -/
noncomputable def process_doc (env : Env) (center_lat center_lon radius_km : ℝ)
    (spotify_id : String) (d : Doc) : List NearbyRow :=
  if d.id = spotify_id then []
  else
    match d.data.latitude, d.data.longitude with
    | some lat, some lon =>
      if haversine center_lat center_lon lat lon ≤ radius_km * 1.1 then
        if isFake d.id then [fakeRow env.quote d lat lon]
        else
          match env.token d.id with
          | some _ => enrich_user env.profile env.playing d.id lat lon
          | none => []
      else []
    | _, _ => []

/-- The Firestore range query for one cell (`api/api.py`, line 227):
documents whose `geohash` field lies in the closed lexicographic range
`[cell, cell + "~"]` and whose `location_sharing_enabled` is true.  Documents
lacking the `geohash` field are not indexed by the range filter.  The
comparison is the lexicographic order on the character sequences, which
coincides with `String`'s order (`String.le_iff_toList_le`). -/
def fs_query (db : List Doc) (cell : String) : List Doc :=
  db.filter fun d =>
    match d.data.geohash with
    | some g => decide (cell.data ≤ g.data) && decide (g.data ≤ (cell ++ "~").data) &&
        d.data.location_sharing_enabled
    | none => false

/-- The per-cell loop of `users_nearby`: each cell's query either raises
(aborting the whole request — the source has no try/except here) or streams
its documents through `process_doc`, accumulating rows in cell order. -/
noncomputable def run_cells (env : Env) (db : List Doc)
    (center_lat center_lon radius_km : ℝ) (spotify_id : String) :
    List String → Except SearchError (List NearbyRow)
  | [] => .ok []
  | c :: cs =>
    if env.fail c then .error .indexQuery
    else do
      let rest ← run_cells env db center_lat center_lon radius_km spotify_id cs
      .ok ((fs_query db c).flatMap (process_doc env center_lat center_lon radius_km spotify_id)
          ++ rest)

/-- The cells scanned by a search: the 9-cell neighborhood of the centre's
geohash at the radius-determined precision. -/
noncomputable def search_cells (env : Env) (center_lat center_lon radius_km : ℝ) : List String :=
  get_all_neighbors env.adj (env.encode center_lat center_lon (precisionFor radius_km))

/-- The `users_nearby` route (`api/api.py`, lines 204–285).  `body` is the
parsed request: `none` models a body whose latitude/longitude/radius fail
`float(...)` conversion (the route returns 400); otherwise `radius_km`
defaults to 5. -/
noncomputable def users_nearby (env : Env) (db : List Doc) (spotify_id : String)
    (body : Option (ℝ × ℝ × Option ℝ)) : Except SearchError (List NearbyRow) :=
  match body with
  | none => .error .validation
  | some (center_lat, center_lon, r) =>
    let radius_km := r.getD 5
    run_cells env db center_lat center_lon radius_km spotify_id
      (search_cells env center_lat center_lon radius_km)

theorem mem_fs_query {db : List Doc} {cell : String} {d : Doc} :
    d ∈ fs_query db cell ↔
      d ∈ db ∧ ∃ g, d.data.geohash = some g ∧ cell ≤ g ∧ g ≤ cell ++ "~" ∧
        d.data.location_sharing_enabled = true := by
  unfold fs_query
  rw [List.mem_filter]
  rcases hg : d.data.geohash with _ | g <;>
    simp [hg, Bool.and_eq_true, and_assoc, String.le_iff_toList_le, String.toList]

theorem except_bind_ok {ε α β : Type} (a : α) (f : α → Except ε β) :
    (Except.ok a : Except ε α) >>= f = f a := rfl

theorem except_bind_error {ε α β : Type} (e : ε) (f : α → Except ε β) :
    (Except.error e : Except ε α) >>= f = .error e := rfl

theorem mem_enrich_user {profile : String → Except Unit Profile}
    {playing : String → Except Unit (Option Track)} {id : String} {lat lon : ℝ}
    {r : NearbyRow} (h : r ∈ enrich_user profile playing id lat lon) :
    r.id = id ∧ r.latitude = lat ∧ r.longitude = lon ∧
      ∃ t, playing id = .ok (some t) ∧ t.is_playing = true := by
  unfold enrich_user at h
  rcases hp : playing id with e | ot
  · rw [hp] at h
    simp at h
  rw [hp] at h
  rcases ot with _ | t
  · simp at h
  rcases hpl : t.is_playing with _ | _
  · simp [hpl] at h
  rcases hart : t.artists with _ | ⟨a, as⟩
  · simp [hpl, hart] at h
  rcases himg : t.album_images with _ | ⟨img, imgs⟩
  · simp [hpl, hart, himg] at h
  simp only [hpl, hart, himg, if_true, List.mem_singleton] at h
  subst h
  exact ⟨rfl, rfl, rfl, t, rfl, hpl⟩

/-- Anatomy of a row produced from one document: the requester is excluded,
coordinates were present, the haversine filter with 10% slack passed, the
row carries the document's id and coordinates, and the row was built by the
fake branch or by a successful, playing enrichment. -/
theorem mem_process_doc {env : Env} {center_lat center_lon radius_km : ℝ}
    {spotify_id : String} {d : Doc} {r : NearbyRow}
    (h : r ∈ process_doc env center_lat center_lon radius_km spotify_id d) :
    d.id ≠ spotify_id ∧ r.id = d.id ∧
      ∃ lat lon, d.data.latitude = some lat ∧ d.data.longitude = some lon ∧
        r.latitude = lat ∧ r.longitude = lon ∧
        haversine center_lat center_lon lat lon ≤ radius_km * 1.1 ∧
        ((isFake d.id = true ∧ r = fakeRow env.quote d lat lon) ∨
          (isFake d.id = false ∧ (∃ tok, env.token d.id = some tok) ∧
            ∃ t, env.playing d.id = .ok (some t) ∧ t.is_playing = true)) := by
  unfold process_doc at h
  by_cases hid : d.id = spotify_id
  · simp [hid] at h
  · rw [if_neg hid] at h
    rcases hlat : d.data.latitude with _ | lat
    · rw [hlat] at h
      simp at h
    rcases hlon : d.data.longitude with _ | lon
    · rw [hlat, hlon] at h
      simp at h
    rw [hlat, hlon] at h
    simp only [List.mem_ite_nil_right] at h
    obtain ⟨hdist, h⟩ := h
    rcases hfake : isFake d.id with _ | _ <;> rw [hfake] at h
    · simp only [Bool.false_eq_true, if_false] at h
      rcases htok : env.token d.id with _ | tok <;> rw [htok] at h
      · simp at h
      · obtain ⟨hrid, hla, hlo, ht⟩ := mem_enrich_user h
        exact ⟨hid, hrid, lat, lon, rfl, rfl, hla, hlo, hdist,
          Or.inr ⟨rfl, ⟨tok, rfl⟩, ht⟩⟩
    · simp only [if_true, List.mem_singleton] at h
      subst h
      exact ⟨hid, rfl, lat, lon, rfl, rfl, rfl, rfl, hdist, Or.inl ⟨rfl, rfl⟩⟩

theorem run_cells_ok_mem {env : Env} {db : List Doc}
    {center_lat center_lon radius_km : ℝ} {spotify_id : String} :
    ∀ {cells : List String} {rows : List NearbyRow} {r : NearbyRow},
      run_cells env db center_lat center_lon radius_km spotify_id cells = .ok rows →
      r ∈ rows →
      ∃ c ∈ cells, ∃ d ∈ fs_query db c,
        r ∈ process_doc env center_lat center_lon radius_km spotify_id d
  | [], rows, r, h, hr => by
    simp only [run_cells, Except.ok.injEq] at h
    subst h
    simp at hr
  | c :: cs, rows, r, h, hr => by
    rw [run_cells] at h
    by_cases hf : env.fail c
    · simp [hf] at h
    · rw [if_neg (by simp [hf])] at h
      rcases hrec : run_cells env db center_lat center_lon radius_km spotify_id cs with e | rest <;>
        rw [hrec] at h
      · rw [except_bind_error] at h
        simp at h
      · rw [except_bind_ok, Except.ok.injEq] at h
        subst h
        rcases List.mem_append.mp hr with hmem | hmem
        · obtain ⟨d, hd, hrp⟩ := List.mem_flatMap.mp hmem
          exact ⟨c, by simp, d, hd, hrp⟩
        · obtain ⟨c', hc', d, hd, hrp⟩ := run_cells_ok_mem hrec hmem
          exact ⟨c', by simp [hc'], d, hd, hrp⟩

theorem run_cells_ok_complete {env : Env} {db : List Doc}
    {center_lat center_lon radius_km : ℝ} {spotify_id : String} :
    ∀ {cells : List String} {rows : List NearbyRow} {c : String} {d : Doc} {r : NearbyRow},
      run_cells env db center_lat center_lon radius_km spotify_id cells = .ok rows →
      c ∈ cells → d ∈ fs_query db c →
      r ∈ process_doc env center_lat center_lon radius_km spotify_id d →
      r ∈ rows
  | [], rows, c, d, r, _, hc, _, _ => by simp at hc
  | c' :: cs, rows, c, d, r, h, hc, hd, hr => by
    rw [run_cells] at h
    by_cases hf : env.fail c'
    · simp [hf] at h
    · rw [if_neg (by simp [hf])] at h
      rcases hrec : run_cells env db center_lat center_lon radius_km spotify_id cs with e | rest <;>
        rw [hrec] at h
      · rw [except_bind_error] at h
        simp at h
      · rw [except_bind_ok, Except.ok.injEq] at h
        subst h
        rcases List.mem_cons.mp hc with rfl | hc'
        · exact List.mem_append_left _ (List.mem_flatMap.mpr ⟨d, hd, hr⟩)
        · exact List.mem_append_right _ (run_cells_ok_complete hrec hc' hd hr)

theorem run_cells_error_of_fail {env : Env} {db : List Doc}
    {center_lat center_lon radius_km : ℝ} {spotify_id : String} :
    ∀ {cells : List String} {c : String}, c ∈ cells → env.fail c = true →
      run_cells env db center_lat center_lon radius_km spotify_id cells =
        .error .indexQuery
  | [], c, hc, _ => by simp at hc
  | c' :: cs, c, hc, hf => by
    rw [run_cells]
    by_cases hf' : env.fail c'
    · simp [hf']
    · rcases List.mem_cons.mp hc with rfl | hc'
      · exact absurd hf hf'
      · rw [if_neg (by simp [hf']), run_cells_error_of_fail hc' hf]
        exact except_bind_error _ _

theorem run_cells_ok_of_nofail {env : Env} {db : List Doc}
    {center_lat center_lon radius_km : ℝ} {spotify_id : String} :
    ∀ {cells : List String}, (∀ c ∈ cells, env.fail c = false) →
      ∃ rows, run_cells env db center_lat center_lon radius_km spotify_id cells = .ok rows
  | [], _ => ⟨[], rfl⟩
  | c :: cs, h => by
    obtain ⟨rest, hrest⟩ :=
      @run_cells_ok_of_nofail env db center_lat center_lon radius_km spotify_id cs
        (fun c' hc' => h c' (by simp [hc']))
    refine ⟨(fs_query db c).flatMap
      (process_doc env center_lat center_lon radius_km spotify_id) ++ rest, ?_⟩
    rw [run_cells, if_neg (by simp [h c (by simp)]), hrest]
    exact except_bind_ok _ _

/-- A concrete sharing-enabled document with a `fake_user` id sitting exactly
at the search centre, used to exercise the pipeline on closed inputs. -/
def fakeDoc : Doc :=
  { id := "fake_user_1",
    data := { latitude := some 0, longitude := some 0, geohash := some "ezs4200",
              location_sharing_enabled := true, track := none, artist := none,
              image := none, user_name := none } }

/-- A concrete sharing-enabled non-fake document at the search centre. -/
def aliceDoc : Doc :=
  { id := "alice",
    data := { latitude := some 0, longitude := some 0, geohash := some "ezs4201",
              location_sharing_enabled := true, track := none, artist := none,
              image := none, user_name := none } }

/-- The currently-playing track reported for `aliceDoc`'s owner. -/
def aliceTrack : Track :=
  { is_playing := true, name := "SongA", artists := [{ name := "ArtistA", url := "urlA" }],
    album_images := ["imgA"], track_url := "turlA" }

/-- The result row the pipeline assembles for `aliceDoc`. -/
def aliceRow : NearbyRow :=
  { id := "alice", latitude := 0, longitude := 0, track_name := "SongA",
    artist := "ArtistA", album_art_url := "imgA", user_name := "Alice",
    spotify_url := "purl", track_url := "turlA", artist_url := "urlA" }

/-- A concrete oracle environment: one search cell `"ezs42"`, no failing cell
queries, Spotify oracles answering only for `"alice"`. -/
def scEnv : Env :=
  { encode := fun _ _ _ => "ezs42",
    adj := fun h _ => h,
    quote := fun s => s,
    token := fun id => if id = "alice" then some "tok" else none,
    profile := fun id => if id = "alice" then .ok { display_name := "Alice", profile_url := "purl" }
      else .error (),
    playing := fun id => if id = "alice" then .ok (some aliceTrack) else .error (),
    fail := fun _ => false }

def scDb : List Doc := [fakeDoc, aliceDoc]

theorem sc_cells : search_cells scEnv 0 0 5 = ["ezs42"] := rfl

theorem sc_fs_query : fs_query scDb "ezs42" = [fakeDoc, aliceDoc] := rfl

theorem sc_dist_zero : haversine 0 0 0 0 ≤ (5 : ℝ) * 1.1 := by
  rw [haversine_self]
  norm_num

theorem sc_process_fake :
    process_doc scEnv 0 0 5 "me" fakeDoc = [fakeRow scEnv.quote fakeDoc 0 0] := by
  unfold process_doc
  rw [if_neg (by decide : ¬(fakeDoc.id = "me"))]
  show (if haversine 0 0 0 0 ≤ 5 * 1.1 then
      if isFake fakeDoc.id then [fakeRow scEnv.quote fakeDoc 0 0]
      else match scEnv.token fakeDoc.id with
        | some _ => enrich_user scEnv.profile scEnv.playing fakeDoc.id 0 0
        | none => [] else []) = _
  rw [if_pos sc_dist_zero, if_pos (by decide : isFake fakeDoc.id = true)]

theorem sc_process_alice :
    process_doc scEnv 0 0 5 "me" aliceDoc = [aliceRow] := by
  unfold process_doc
  rw [if_neg (by decide : ¬(aliceDoc.id = "me"))]
  show (if haversine 0 0 0 0 ≤ 5 * 1.1 then
      if isFake aliceDoc.id then [fakeRow scEnv.quote aliceDoc 0 0]
      else match scEnv.token aliceDoc.id with
        | some _ => enrich_user scEnv.profile scEnv.playing aliceDoc.id 0 0
        | none => [] else []) = _
  rw [if_pos sc_dist_zero, if_neg (by decide : ¬(isFake aliceDoc.id = true))]
  rfl

/-- Closed evaluation of the whole pipeline on the concrete scenario. -/
theorem sc_eval : users_nearby scEnv scDb "me" (some (0, 0, some 5)) =
    .ok [fakeRow scEnv.quote fakeDoc 0 0, aliceRow] := by
  unfold users_nearby
  simp only [Option.getD_some]
  rw [sc_cells, run_cells, if_neg (by decide : ¬(scEnv.fail "ezs42" = true)),
    show run_cells scEnv scDb 0 0 5 "me" [] = .ok [] from rfl, except_bind_ok,
    sc_fs_query]
  rw [show [fakeDoc, aliceDoc].flatMap (process_doc scEnv 0 0 5 "me") =
    process_doc scEnv 0 0 5 "me" fakeDoc ++ (process_doc scEnv 0 0 5 "me" aliceDoc ++ []) from rfl]
  rw [sc_process_fake, sc_process_alice]
  rfl

/-- A sharing-enabled document whose geohash lies in the second scanned cell
of the two-cell scenarios below. -/
def bobDoc : Doc :=
  { id := "fake_user_2",
    data := { latitude := some 0, longitude := some 0, geohash := some "bbbbb00",
              location_sharing_enabled := true, track := none, artist := none,
              image := none, user_name := none } }

def badDb : List Doc := [bobDoc]

/-- An environment scanning two cells, `"ezs42"` and `"bbbbb"`, where the
query for the first cell raises. -/
def badEnv : Env :=
  { encode := fun _ _ _ => "ezs42",
    adj := fun _ _ => "bbbbb",
    quote := fun s => s,
    token := fun _ => none,
    profile := fun _ => .error (),
    playing := fun _ => .error (),
    fail := fun c => decide (c = "ezs42") }

/-- The same two-cell environment with no failing cell. -/
def goodEnv : Env :=
  { encode := fun _ _ _ => "ezs42",
    adj := fun _ _ => "bbbbb",
    quote := fun s => s,
    token := fun _ => none,
    profile := fun _ => .error (),
    playing := fun _ => .error (),
    fail := fun _ => false }

theorem bad_cells : search_cells badEnv 0 0 5 = ["ezs42", "bbbbb"] := rfl

theorem good_cells : search_cells goodEnv 0 0 5 = ["ezs42", "bbbbb"] := rfl

/-- With the first cell's query raising, the whole search aborts. -/
theorem bad_eval : users_nearby badEnv badDb "me" (some (0, 0, some 5)) =
    .error .indexQuery := by
  unfold users_nearby
  simp only [Option.getD_some]
  rw [bad_cells, run_cells, if_pos (by decide : badEnv.fail "ezs42" = true)]

theorem good_process_bob :
    process_doc goodEnv 0 0 5 "me" bobDoc = [fakeRow goodEnv.quote bobDoc 0 0] := by
  unfold process_doc
  rw [if_neg (by decide : ¬(bobDoc.id = "me"))]
  show (if haversine 0 0 0 0 ≤ 5 * 1.1 then
      if isFake bobDoc.id then [fakeRow goodEnv.quote bobDoc 0 0]
      else match goodEnv.token bobDoc.id with
        | some _ => enrich_user goodEnv.profile goodEnv.playing bobDoc.id 0 0
        | none => [] else []) = _
  rw [if_pos sc_dist_zero, if_pos (by decide : isFake bobDoc.id = true)]

/-- With no failing cell and the same index, the second cell's document is
returned: the aborted search of `bad_eval` really dropped it. -/
theorem good_eval : users_nearby goodEnv badDb "me" (some (0, 0, some 5)) =
    .ok [fakeRow goodEnv.quote bobDoc 0 0] := by
  unfold users_nearby
  simp only [Option.getD_some]
  rw [good_cells, run_cells, if_neg (by decide : ¬(goodEnv.fail "ezs42" = true)),
    run_cells, if_neg (by decide : ¬(goodEnv.fail "bbbbb" = true)),
    show run_cells goodEnv badDb 0 0 5 "me" [] = .ok [] from rfl, except_bind_ok,
    show fs_query badDb "bbbbb" = [bobDoc] from rfl]
  rw [show [bobDoc].flatMap (process_doc goodEnv 0 0 5 "me") =
    process_doc goodEnv 0 0 5 "me" bobDoc ++ [] from rfl]
  rw [good_process_bob, except_bind_ok]
  rw [show fs_query badDb "ezs42" = [] from rfl]
  rfl

/-- C1: for every completed nearby search, every returned row lies at
haversine distance at most radiusKm × 1.1 from the centre, and a stored
candidate whose distance exceeds radiusKm × 1.1 never appears among the
results — even if its geohash lies in one of the scanned cells (the search
is over an arbitrary environment, so over arbitrary scanned cells). -/
theorem C1_distance_filter (env : Env) (db : List Doc) (spotify_id : String)
    (center_lat center_lon : ℝ) (radius : Option ℝ) (rows : List NearbyRow)
    (h : users_nearby env db spotify_id (some (center_lat, center_lon, radius)) = .ok rows) :
    (∀ r ∈ rows,
      haversine center_lat center_lon r.latitude r.longitude ≤ radius.getD 5 * 1.1) ∧
    (∀ d ∈ db, ∀ lat lon, d.data.latitude = some lat → d.data.longitude = some lon →
      radius.getD 5 * 1.1 < haversine center_lat center_lon lat lon →
      ∀ r ∈ rows, ¬(r.id = d.id ∧ r.latitude = lat ∧ r.longitude = lon)) := by
  simp only [users_nearby] at h
  have main : ∀ r ∈ rows,
      haversine center_lat center_lon r.latitude r.longitude ≤ radius.getD 5 * 1.1 := by
    intro r hr
    obtain ⟨c, _, d, _, hrd⟩ := run_cells_ok_mem h hr
    obtain ⟨_, _, lat, lon, _, _, hla, hlo, hdist, _⟩ := mem_process_doc hrd
    rw [hla, hlo]
    exact hdist
  refine ⟨main, ?_⟩
  rintro d _ lat lon _ _ hfar r hr ⟨_, hrlat, hrlon⟩
  have := main r hr
  rw [hrlat, hrlon] at this
  linarith

theorem C1_distance_filter_witness :
    haversine 0 0 aliceRow.latitude aliceRow.longitude ≤ (5 : ℝ) * 1.1 :=
  (C1_distance_filter scEnv scDb "me" 0 0 (some 5) _ sc_eval).1 aliceRow (by simp)

/-- C2: no returned row carries the requester's own user id, for any search
body and any index contents. -/
theorem C2_requester_excluded (env : Env) (db : List Doc) (spotify_id : String)
    (body : Option (ℝ × ℝ × Option ℝ)) (rows : List NearbyRow)
    (h : users_nearby env db spotify_id body = .ok rows) :
    ∀ r ∈ rows, r.id ≠ spotify_id := by
  rcases body with _ | ⟨center_lat, center_lon, radius⟩
  · simp [users_nearby] at h
  · simp only [users_nearby] at h
    intro r hr
    obtain ⟨c, _, d, _, hrd⟩ := run_cells_ok_mem h hr
    obtain ⟨hid, hrid, _⟩ := mem_process_doc hrd
    rw [hrid]
    exact hid

theorem C2_requester_excluded_witness :
    (fakeRow scEnv.quote fakeDoc 0 0).id ≠ "me" :=
  C2_requester_excluded scEnv scDb "me" (some (0, 0, some 5)) _ sc_eval
    (fakeRow scEnv.quote fakeDoc 0 0) (by simp)

/-- C3: a cell's candidate set is exactly the stored sharing-enabled records
whose geohash lies in the lexicographic range from the cell to the `"~"`
sentinel — for well-formed stored geohashes the closed range the code queries
equals the half-open range `[cell, cell+"~")`, and that range coincides with
prefix matching on the cell; moreover a sharing-disabled record never
contributes a result row. -/
theorem C3_cell_candidates (db : List Doc) (cell : String) :
    (∀ d : Doc, (∀ g, d.data.geohash = some g → ValidGeohash7 g) →
      (d ∈ fs_query db cell ↔
        d ∈ db ∧ d.data.location_sharing_enabled = true ∧
          ∃ g, d.data.geohash = some g ∧ cell ≤ g ∧ g < cell ++ "~")) ∧
    (∀ g : String, ValidGeohash7 g →
      ((cell ≤ g ∧ g < cell ++ "~") ↔ cell.data <+: g.data)) ∧
    (∀ (env : Env) (spotify_id : String) (center_lat center_lon : ℝ)
      (radius : Option ℝ) (rows : List NearbyRow),
      users_nearby env db spotify_id (some (center_lat, center_lon, radius)) = .ok rows →
      ∀ r ∈ rows, ∃ d ∈ db, d.id = r.id ∧ d.data.location_sharing_enabled = true) := by
  refine ⟨?_, ?_, ?_⟩
  · intro d hv
    rw [mem_fs_query]
    constructor
    · rintro ⟨hdb, g, hg, hle, hsent, hsh⟩
      exact ⟨hdb, hsh, g, hg,
        hle, (le_sentinel_iff_lt cell g (hv g hg).2).mp hsent⟩
    · rintro ⟨hdb, hsh, g, hg, hle, hsent⟩
      exact ⟨hdb, g, hg, hle, le_of_lt hsent, hsh⟩
  · intro g hvalid
    rw [← range_iff_prefix cell g hvalid.2]
    constructor
    · rintro ⟨h1, h2⟩
      exact ⟨h1, le_of_lt h2⟩
    · rintro ⟨h1, h2⟩
      exact ⟨h1, (le_sentinel_iff_lt cell g hvalid.2).mp h2⟩
  · intro env spotify_id center_lat center_lon radius rows h r hr
    simp only [users_nearby] at h
    obtain ⟨c, _, d, hd, hrd⟩ := run_cells_ok_mem h hr
    obtain ⟨hdb, _, hg, _, _, hsh⟩ := mem_fs_query.mp hd
    obtain ⟨_, hrid, _⟩ := mem_process_doc hrd
    exact ⟨d, hdb, hrid.symm, hsh⟩

theorem C3_cell_candidates_witness :
    fakeDoc ∈ fs_query scDb "ezs42" ∧ ("ezs42" : String).data <+: ("ezs4200" : String).data := by
  have h1 := (C3_cell_candidates scDb "ezs42").1 fakeDoc
    (fun g hg => by cases Option.some.inj hg; decide)
  have h2 := (C3_cell_candidates scDb "ezs42").2.1 "ezs4200" (by decide)
  have hle : ("ezs42" : String) ≤ "ezs4200" := by
    rw [String.le_iff_toList_le]
    decide
  have hlt : ("ezs4200" : String) < "ezs42" ++ "~" := by
    rw [String.lt_iff_toList_lt]
    decide
  exact ⟨h1.mpr ⟨by simp [scDb], rfl, "ezs4200", rfl, hle, hlt⟩, h2.mp ⟨hle, hlt⟩⟩

/-- C6: the radius→precision map realizes exactly the documented thresholds
(6 for radius ≤ 2.5 including all nonpositive radii, 5 up to 20, 4 up to 80,
3 up to 600, 2 beyond) and is antitone: a larger radius never selects a
finer precision. -/
theorem C6_precision_thresholds :
    (∀ r : ℝ, r ≤ 2.5 → precisionFor r = 6) ∧
    (∀ r : ℝ, 2.5 < r → r ≤ 20 → precisionFor r = 5) ∧
    (∀ r : ℝ, 20 < r → r ≤ 80 → precisionFor r = 4) ∧
    (∀ r : ℝ, 80 < r → r ≤ 600 → precisionFor r = 3) ∧
    (∀ r : ℝ, 600 < r → precisionFor r = 2) ∧
    (∀ r₁ r₂ : ℝ, r₁ ≤ r₂ → precisionFor r₂ ≤ precisionFor r₁) := by
  refine ⟨?_, ?_, ?_, ?_, ?_, fun r₁ r₂ h => precisionFor_antitone h⟩ <;>
    intro r <;> intros <;> unfold precisionFor <;> split_ifs <;> first | rfl | linarith

theorem C6_precision_thresholds_witness :
    precisionFor 2.5 = 6 ∧ precisionFor 20 = 5 ∧ precisionFor 80 = 4 ∧
      precisionFor 600 = 3 ∧ precisionFor 1000 = 2 ∧ precisionFor (-3) = 6 ∧
      precisionFor 7 ≤ precisionFor 3 :=
  ⟨C6_precision_thresholds.1 2.5 (by norm_num),
    C6_precision_thresholds.2.1 20 (by norm_num) (by norm_num),
    C6_precision_thresholds.2.2.1 80 (by norm_num) (by norm_num),
    C6_precision_thresholds.2.2.2.1 600 (by norm_num) (by norm_num),
    C6_precision_thresholds.2.2.2.2.1 1000 (by norm_num),
    C6_precision_thresholds.1 (-3) (by norm_num),
    C6_precision_thresholds.2.2.2.2.2 3 7 (by norm_num)⟩

/-- C7: for every geohash and every adjacency oracle, the neighborhood
contains the centre hash, has no duplicates, and has between 1 and 9
members. -/
theorem C7_neighborhood (adj : String → Direction → String) (h : String) :
    h ∈ get_all_neighbors adj h ∧ (get_all_neighbors adj h).Nodup ∧
      1 ≤ (get_all_neighbors adj h).length ∧ (get_all_neighbors adj h).length ≤ 9 :=
  ⟨self_mem_get_all_neighbors adj h, get_all_neighbors_nodup adj h,
    one_le_get_all_neighbors_length adj h, get_all_neighbors_length_le adj h⟩

/-- C8: the haversine distance is symmetric in its two endpoints, and the
distance from a point to itself is exactly 0 (in the exact real-number
model of the float computation). -/
theorem C8_haversine_symm_self :
    (∀ lat1 lon1 lat2 lon2 : ℝ,
      haversine lat1 lon1 lat2 lon2 = haversine lat2 lon2 lat1 lon1) ∧
    (∀ lat lon : ℝ, haversine lat lon lat lon = 0) :=
  ⟨haversine_comm, haversine_self⟩

/-- C9: both location-writing operations derive the stored geohash at fixed
precision 7, so (under the encoder's length contract) every stored geohash
has length 7, which is at least every query precision — the query precision
always lies in 2..6. -/
theorem C9_stored_precision (encode : ℝ → ℝ → ℕ → String)
    (hlen : ∀ lat lon p, (encode lat lon p).length = p) :
    (∀ location is_sharing g,
      (save_user_data encode location is_sharing).geohash = some g → g.length = 7) ∧
    (∀ location_data is_sharing g,
      (update_location encode location_data is_sharing).geohash = some g → g.length = 7) ∧
    (∀ radius_km : ℝ, 2 ≤ precisionFor radius_km ∧ precisionFor radius_km ≤ 6 ∧
      precisionFor radius_km ≤ 7) := by
  refine ⟨?_, ?_, fun radius_km => ⟨two_le_precisionFor radius_km,
    precisionFor_le_six radius_km, le_trans (precisionFor_le_six radius_km) (by omega)⟩⟩
  · intro location is_sharing g hg
    obtain ⟨lat, lon, rfl⟩ := save_user_data_geohash encode location is_sharing g hg
    exact hlen lat lon 7
  · intro location_data is_sharing g hg
    obtain ⟨lat, lon, rfl⟩ := update_location_geohash encode location_data is_sharing g hg
    exact hlen lat lon 7

theorem C9_stored_precision_witness :
    (String.mk (List.replicate 7 'a')).length = 7 ∧ 2 ≤ precisionFor 5 ∧
      precisionFor 5 ≤ 7 :=
  ⟨(C9_stored_precision (fun _ _ p => String.mk (List.replicate p 'a'))
      (fun _ _ p => by simp)).1 (some (some 1, some 2)) true _ rfl,
    ((C9_stored_precision (fun _ _ p => String.mk (List.replicate p 'a'))
      (fun _ _ p => by simp)).2.2 5).1,
    ((C9_stored_precision (fun _ _ p => String.mk (List.replicate p 'a'))
      (fun _ _ p => by simp)).2.2 5).2.2⟩

/-- C4, as claimed, is false of the code: `users_nearby` wraps no try/except
around a cell's Firestore query, so one failing cell aborts the whole search.
At a concrete two-cell search, failing the first cell turns the entire result
into an error, although with no failing cell the very same index returns a
row from the second cell. -/
theorem C4_cell_failure_aborts :
    users_nearby badEnv badDb "me" (some (0, 0, some 5)) = .error .indexQuery ∧
      users_nearby goodEnv badDb "me" (some (0, 0, some 5)) =
        .ok [fakeRow goodEnv.quote bobDoc 0 0] :=
  ⟨bad_eval, good_eval⟩

/-- C4 (amended): the failure of a single candidate's enrichment never aborts
the search — if no scanned cell's query fails, the search returns a result
list whatever the token/profile/playing oracles do; but the failure of any
single cell's index query aborts the whole search, and a search on an
unparseable body fails with the validation error. -/
theorem C4_failure_policy (env : Env) (db : List Doc) (spotify_id : String)
    (center_lat center_lon : ℝ) (radius : Option ℝ) :
    ((∀ c ∈ search_cells env center_lat center_lon (radius.getD 5), env.fail c = false) →
      ∃ rows, users_nearby env db spotify_id (some (center_lat, center_lon, radius)) =
        .ok rows) ∧
    (∀ c ∈ search_cells env center_lat center_lon (radius.getD 5), env.fail c = true →
      users_nearby env db spotify_id (some (center_lat, center_lon, radius)) =
        .error .indexQuery) ∧
    users_nearby env db spotify_id none = .error .validation := by
  refine ⟨?_, ?_, rfl⟩
  · intro hnofail
    obtain ⟨rows, hrows⟩ :=
      @run_cells_ok_of_nofail env db center_lat center_lon (radius.getD 5) spotify_id
        (search_cells env center_lat center_lon (radius.getD 5)) hnofail
    exact ⟨rows, by simp only [users_nearby]; exact hrows⟩
  · intro c hc hfail
    simp only [users_nearby]
    exact run_cells_error_of_fail hc hfail

theorem C4_failure_policy_witness :
    (∃ rows, users_nearby scEnv scDb "me" (some (0, 0, some 5)) = .ok rows) ∧
      users_nearby badEnv badDb "me" (some (0, 0, some 5)) = .error .indexQuery ∧
      users_nearby scEnv scDb "me" none = .error .validation :=
  ⟨(C4_failure_policy scEnv scDb "me" 0 0 (some 5)).1 (fun c hc => rfl),
    (C4_failure_policy badEnv badDb "me" 0 0 (some 5)).2.1 "ezs42"
      (by rw [show search_cells badEnv 0 0 ((some (5 : ℝ)).getD 5) =
        ["ezs42", "bbbbb"] from bad_cells]; simp) rfl,
    (C4_failure_policy scEnv scDb "me" 0 0 (some 5)).2.2⟩

/-- C10: a candidate that passed the distance filter and whose id contains
`"fake_user"` always yields the synthesized row built from stored fields —
the Spotify oracles are never consulted for it — whereas any returned row
with a non-fake id required a token, a successful now-playing fetch, and a
track reported as playing. -/
theorem C10_fake_user_bypass (env : Env) (db : List Doc) (spotify_id : String)
    (center_lat center_lon : ℝ) (radius : Option ℝ) (rows : List NearbyRow)
    (h : users_nearby env db spotify_id (some (center_lat, center_lon, radius)) = .ok rows) :
    (∀ c ∈ search_cells env center_lat center_lon (radius.getD 5), ∀ d ∈ fs_query db c,
      d.id ≠ spotify_id → ∀ lat lon, d.data.latitude = some lat →
      d.data.longitude = some lon →
      haversine center_lat center_lon lat lon ≤ radius.getD 5 * 1.1 →
      isFake d.id = true → fakeRow env.quote d lat lon ∈ rows) ∧
    (∀ r ∈ rows, isFake r.id = false →
      (∃ tok, env.token r.id = some tok) ∧
      ∃ t, env.playing r.id = .ok (some t) ∧ t.is_playing = true) := by
  simp only [users_nearby] at h
  constructor
  · intro c hc d hd hid lat lon hlat hlon hdist hfake
    refine run_cells_ok_complete h hc hd ?_
    unfold process_doc
    rw [if_neg hid, hlat, hlon]
    simp only [List.mem_ite_nil_right]
    exact ⟨hdist, by rw [hfake, if_pos rfl]; exact List.mem_singleton.mpr rfl⟩
  · intro r hr hnotfake
    obtain ⟨c, _, d, _, hrd⟩ := run_cells_ok_mem h hr
    obtain ⟨_, hrid, lat, lon, _, _, _, _, _, hbranch⟩ := mem_process_doc hrd
    rcases hbranch with ⟨hfake, _⟩ | ⟨_, htok, ht⟩
    · rw [hrid, hfake] at hnotfake
      cases hnotfake
    · rw [hrid]
      exact ⟨htok, ht⟩

theorem C10_fake_user_bypass_witness :
    fakeRow scEnv.quote fakeDoc 0 0 ∈ [fakeRow scEnv.quote fakeDoc 0 0, aliceRow] ∧
      ((∃ tok, scEnv.token aliceRow.id = some tok) ∧
        ∃ t, scEnv.playing aliceRow.id = .ok (some t) ∧ t.is_playing = true) :=
  ⟨(C10_fake_user_bypass scEnv scDb "me" 0 0 (some 5) _ sc_eval).1 "ezs42"
      (by rw [show search_cells scEnv 0 0 ((some (5 : ℝ)).getD 5) =
        ["ezs42"] from sc_cells]; simp)
      fakeDoc (by rw [sc_fs_query]; simp) (by decide) 0 0 rfl rfl sc_dist_zero
      (by decide),
    (C10_fake_user_bypass scEnv scDb "me" 0 0 (some 5) _ sc_eval).2 aliceRow
      (by simp) (by decide)⟩

end Spotimap
